import Mathlib

/-!
Shallow embedding of the location-aware trending engine of `news-backend`
(`services/llmService.go` and the `haversine` helper duplicated in the
controllers package).  Floating-point values are modelled as real numbers,
timestamps as real-valued seconds, and the process-wide mutable state
(`events`, `cache`) as an explicit `SysState` record threaded through
`GetTrendingForLocation`.  The pseudo-random generator used by
`simulateEvents` is modelled as an ambient stream of draws, constrained in
theorems exactly as `rand.Intn` / `rand.Float64` constrain their results.
-/

namespace NewsBackend

noncomputable section

open Classical

/-- Model of `models.Article` (`models/article.go`).  `Publication` is the
parsed timestamp (seconds); field defaults only ease building test values. -/
structure Article where
  ID : String := ""
  Title : String := ""
  Description : String := ""
  URL : String := ""
  PublicationRaw : String := ""
  Publication : ℝ := 0
  SourceName : String := ""
  Category : List String := []
  RelevanceScore : ℝ := 0
  Latitude : ℝ := 0
  Longitude : ℝ := 0

instance : Inhabited Article := ⟨{}⟩

/-- Model of `services.Event`: one engagement event.  The Go field `Type`
cannot be used as a Lean field name, so it is spelled `EvType`. -/
structure Event where
  ArticleID : String := ""
  EvType : String := ""
  Lat : ℝ := 0
  Lon : ℝ := 0
  Ts : ℝ := 0

/-- Model of `services.trendingItem`. -/
structure trendingItem where
  Article : Article
  Score : ℝ

/-- Model of `services.cachedTrending`: a cache entry with its write time. -/
structure cachedTrending where
  At : ℝ
  Result : List trendingItem

/-- The process-wide mutable state of the service: the in-memory event
store `events` and the result cache `cache` (a Go map, modelled as a
function to `Option`). -/
structure SysState where
  events : List Event
  cache : ℝ × ℝ × ℝ → Option cachedTrending

/-- Degrees to radians, as the `toRad` closure in `haversine`. -/
def toRad (d : ℝ) : ℝ := d * Real.pi / 180

/-- Model of Go `math.Atan2 y x` on real (hence never NaN/∞) arguments. -/
def atan2 (y x : ℝ) : ℝ :=
  if 0 < x then Real.arctan (y / x)
  else if x < 0 then
    (if 0 ≤ y then Real.arctan (y / x) + Real.pi else Real.arctan (y / x) - Real.pi)
  else
    (if 0 < y then Real.pi / 2 else if y < 0 then -(Real.pi / 2) else 0)

/-- Model of `haversine` (identical in `services/llmService.go` and in the
controllers package): great-circle distance in km, Earth radius 6371 km. -/
def haversine (lat1 lon1 lat2 lon2 : ℝ) : ℝ :=
  let R : ℝ := 6371
  let dLat := toRad (lat2 - lat1)
  let dLon := toRad (lon2 - lon1)
  let lat1r := toRad lat1
  let lat2r := toRad lat2
  let a := Real.sin (dLat / 2) * Real.sin (dLat / 2) +
    Real.cos lat1r * Real.cos lat2r * Real.sin (dLon / 2) * Real.sin (dLon / 2)
  let c := 2 * atan2 (Real.sqrt a) (Real.sqrt (1 - a))
  R * c

/-- Model of Go `math.Round`: round half away from zero. -/
def goRound (x : ℝ) : ℝ :=
  if 0 ≤ x then ((⌊x + 1 / 2⌋ : ℤ) : ℝ) else -((⌊-x + 1 / 2⌋ : ℤ) : ℝ)

/-- Model of `cacheKey`: latitude/longitude rounded to 2 decimals and the
radius rounded to 1 decimal.  The Go code renders the triple with
`fmt.Sprintf("%.2f:%.2f:%.1f", ...)`, which is injective on such rounded
values, so the key is modelled as the triple itself. -/
def cacheKey (lat lon radius : ℝ) : ℝ × ℝ × ℝ :=
  (goRound (lat * 100) / 100, goRound (lon * 100) / 100, goRound (radius * 10) / 10)

/-- Model of the `weights` map lookup `weights[e.Type]` in
`GetTrendingForLocation`; a Go map lookup yields `0.0` on a missing key. -/
def typeWeight (t : String) : ℝ :=
  if t = "view" then 1 else if t = "click" then 2 else if t = "share" then 3 else 0

/-- The score contribution of one event at query point `(lat, lon)` at time
`now` (seconds): `w * decay * (1 / (1 + d))` with a 12-hour half-life decay
on `ageHours = (now - e.Ts) / 3600`. -/
def eventScore (lat lon now : ℝ) (e : Event) : ℝ :=
  typeWeight e.EvType *
    Real.exp (-Real.log 2 * ((now - e.Ts) / 3600) / 12) *
    (1 / (1 + haversine lat lon e.Lat e.Lon))

/-- The Go map `scoreMap`, modelled with its key set (insertion order fixes
the arbitrary Go map iteration order) and its value function. -/
structure ScoreMap where
  keys : List String
  val : String → ℝ

/-- One iteration of the scoring loop of `GetTrendingForLocation`
(lines 131-142): skip the event if `d > radius`, otherwise accumulate
`w * decay * (1/(1+d))` into `scoreMap[e.ArticleID]`. -/
def scoreStep (lat lon radius now : ℝ) (m : ScoreMap) (e : Event) : ScoreMap :=
  if radius < haversine lat lon e.Lat e.Lon then m
  else
    { keys := if e.ArticleID ∈ m.keys then m.keys else m.keys ++ [e.ArticleID],
      val := fun id =>
        if id = e.ArticleID then m.val id + eventScore lat lon now e else m.val id }

/-- The whole scoring loop over the event snapshot. -/
def scoreMap (evs : List Event) (lat lon radius now : ℝ) : ScoreMap :=
  evs.foldl (scoreStep lat lon radius now) ⟨[], fun _ => 0⟩

/-- Spec-side definition, following the spec's words: the score of content
id `c` is the sum, over exactly those events whose haversine distance `d`
from the query satisfies `d ≤ radius` and whose article id is `c`, of
`type_weight * exp(-ln 2 * age_hours / 12) * (1 / (1 + d))`. -/
def specScore (evs : List Event) (lat lon radius now : ℝ) (c : String) : ℝ :=
  ((evs.filter fun e =>
      decide (haversine lat lon e.Lat e.Lon ≤ radius ∧ e.ArticleID = c)).map
    (eventScore lat lon now)).sum

/-- The result slicing used on both the cache-hit and the computed path:
`if len(items) > limit { return items[:limit] }; return items`. -/
def takeTop {α : Type} (l : List α) (limit : ℕ) : List α :=
  if limit < l.length then l.take limit else l

/-- Model of `loadArticlesByIDs`: read all articles from the primary store;
on failure fall back to the bundled file; filter either list by membership
of the id in `ids`.  The two fallible reads are passed in as `Except`
values; a failed file read leaves the fallback slice `all` empty
(`all, _ := LoadNewsDataFromFile(...)`). -/
def loadArticlesByIDs (ids : List String)
    (dbRead fileRead : Except String (List Article)) : List Article :=
  match dbRead with
  | .error _ =>
    let all := match fileRead with | .ok l => l | .error _ => []
    all.filter fun a => decide (a.ID ∈ ids)
  | .ok articles => articles.filter fun a => decide (a.ID ∈ ids)

/-- The cache-miss path of `GetTrendingForLocation` (lines 119-175): score
the snapshot, resolve the scored ids (only when there is at least one),
sort by descending score, cache the full list, and return the top slice.
`sort.Slice` with the strict `>` comparator is modelled by `mergeSort`
with the non-strict descending relation.  Resolution of ids to articles is
abstracted as the function `resolve` (the claims about its behaviour are
stated against `loadArticlesByIDs` directly). -/
def computeTrending (evs : List Event) (resolve : List String → List Article)
    (lat lon radius now : ℝ) : List trendingItem :=
  let m := scoreMap evs lat lon radius now
  let ids := m.keys
  let articles := if 0 < ids.length then resolve ids else []
  let items := articles.map fun a => trendingItem.mk a (m.val a.ID)
  items.mergeSort fun x y => decide (y.Score ≤ x.Score)

/-- The state-updating tail of the miss path: cache the full ranked list
under the query's key at time `now`, return the top slice and a nil
error. -/
def recomputeTrending (s : SysState) (resolve : List String → List Article)
    (lat lon radius : ℝ) (limit : ℕ) (now : ℝ) :
    (List trendingItem × Option String) × SysState :=
  let items := computeTrending s.events resolve lat lon radius now
  ((takeTop items limit, none),
   { events := s.events,
     cache := fun k =>
       if k = cacheKey lat lon radius then some ⟨now, items⟩ else s.cache k })

/-- Model of `GetTrendingForLocation`: serve from the cache when the entry
under the quantized key is younger than 60 seconds, otherwise recompute
(and overwrite the entry).  A single time value `now` stands for the
`time.Now()` / `time.Since` reads of one call. -/
def GetTrendingForLocation (s : SysState) (resolve : List String → List Article)
    (lat lon radius : ℝ) (limit : ℕ) (now : ℝ) :
    (List trendingItem × Option String) × SysState :=
  match s.cache (cacheKey lat lon radius) with
  | some e =>
    if now - e.At < 60 then ((takeTop e.Result limit, none), s)
    else recomputeTrending s resolve lat lon radius limit now
  | none => recomputeTrending s resolve lat lon radius limit now

/-- One per-event tuple of pseudo-random draws consumed by the body of the
simulation loop: the article index (`rand.Intn(len(articles))`), the two
jitter samples (`rand.Float64()`), the age in minutes
(`rand.Intn(48*60)`) and the type index (`rand.Intn(3)`). -/
structure EventDraw where
  artIdx : ℕ := 0
  latU : ℝ := 0
  lonU : ℝ := 0
  ageMin : ℕ := 0
  typIdx : ℕ := 0

/-- Model of `simulateEvents`: replace the whole event collection; with no
articles the new collection is empty, otherwise `1000 + numDraw` events
(`numDraw` models `rand.Intn(2000)`) are generated from the draw stream
`draws`, each jittered around a uniformly chosen article and aged up to 48
hours into the past. -/
def simulateEvents (articles : List Article) (now : ℝ) (numDraw : ℕ)
    (draws : ℕ → EventDraw) : List Event :=
  if articles.length = 0 then []
  else
    (List.range (1000 + numDraw)).map fun i =>
      let d := draws i
      let a := articles.getD d.artIdx default
      { ArticleID := a.ID,
        EvType := (["view", "click", "share"].getD d.typIdx ""),
        Lat := a.Latitude + (d.latU - 0.5) * 0.05,
        Lon := a.Longitude + (d.lonU - 0.5) * 0.05,
        Ts := now - 60 * (d.ageMin : ℝ) }

/-! Geo-distance lemmas -/

lemma sin_sq_sub_comm (x y : ℝ) :
    Real.sin ((x - y) * Real.pi / 180 / 2) * Real.sin ((x - y) * Real.pi / 180 / 2) =
      Real.sin ((y - x) * Real.pi / 180 / 2) * Real.sin ((y - x) * Real.pi / 180 / 2) := by
  have h : (x - y) * Real.pi / 180 / 2 = -((y - x) * Real.pi / 180 / 2) := by ring
  rw [h, Real.sin_neg]
  ring

lemma haversine_comm (lat1 lon1 lat2 lon2 : ℝ) :
    haversine lat1 lon1 lat2 lon2 = haversine lat2 lon2 lat1 lon1 := by
  have hlat : Real.sin ((lat1 - lat2) * Real.pi / 180 / 2) =
      -Real.sin ((lat2 - lat1) * Real.pi / 180 / 2) := by
    rw [show (lat1 - lat2) * Real.pi / 180 / 2 =
      -((lat2 - lat1) * Real.pi / 180 / 2) from by ring, Real.sin_neg]
  have hlon : Real.sin ((lon1 - lon2) * Real.pi / 180 / 2) =
      -Real.sin ((lon2 - lon1) * Real.pi / 180 / 2) := by
    rw [show (lon1 - lon2) * Real.pi / 180 / 2 =
      -((lon2 - lon1) * Real.pi / 180 / 2) from by ring, Real.sin_neg]
  simp only [haversine, toRad]
  rw [hlat, hlon]
  ring_nf

lemma haversine_self (lat lon : ℝ) : haversine lat lon lat lon = 0 := by
  simp only [haversine, toRad, sub_self, zero_mul, zero_div, Real.sin_zero,
    mul_zero, add_zero, Real.sqrt_zero, sub_zero, Real.sqrt_one]
  rw [atan2]
  norm_num [Real.arctan_zero]

/-- C8: the haversine distance function is symmetric and zero on identical
points: for all coordinate pairs `a` and `b`,
`distance(a, b) = distance(b, a)`, and `distance(a, a) = 0`. -/
theorem haversine_symm_and_zero_on_diag :
    (∀ lat1 lon1 lat2 lon2 : ℝ,
      haversine lat1 lon1 lat2 lon2 = haversine lat2 lon2 lat1 lon1) ∧
    (∀ lat lon : ℝ, haversine lat lon lat lon = 0) :=
  ⟨haversine_comm, haversine_self⟩

/-! Scoring lemmas -/

lemma specScore_nil (lat lon radius now : ℝ) (c : String) :
    specScore [] lat lon radius now c = 0 := by
  simp [specScore]

lemma specScore_cons (e : Event) (evs : List Event) (lat lon radius now : ℝ)
    (c : String) :
    specScore (e :: evs) lat lon radius now c =
      (if haversine lat lon e.Lat e.Lon ≤ radius ∧ e.ArticleID = c then
        eventScore lat lon now e else 0) + specScore evs lat lon radius now c := by
  by_cases h : haversine lat lon e.Lat e.Lon ≤ radius ∧ e.ArticleID = c
  · simp [specScore, List.filter_cons, h]
  · simp [specScore, List.filter_cons, h]

set_option maxRecDepth 4000 in
lemma scoreStep_foldl_val (lat lon radius now : ℝ) (c : String) :
    ∀ (evs : List Event) (m : ScoreMap),
      (evs.foldl (scoreStep lat lon radius now) m).val c =
        m.val c + specScore evs lat lon radius now c
  | [], m => by simp [specScore_nil]
  | e :: evs, m => by
    rw [List.foldl_cons, scoreStep_foldl_val lat lon radius now c evs, specScore_cons]
    by_cases hd : radius < haversine lat lon e.Lat e.Lon
    · have hnot : ¬(haversine lat lon e.Lat e.Lon ≤ radius ∧ e.ArticleID = c) :=
        fun hc => absurd hc.1 (not_le.mpr hd)
      rw [if_neg hnot, zero_add]
      unfold scoreStep
      rw [if_pos hd]
    · by_cases hc : e.ArticleID = c
      · rw [if_pos ⟨not_lt.mp hd, hc⟩]
        unfold scoreStep
        rw [if_neg hd]
        dsimp only
        rw [if_pos hc.symm]
        ring
      · rw [if_neg (fun hcon => hc hcon.2)]
        unfold scoreStep
        rw [if_neg hd]
        dsimp only
        rw [if_neg (fun h => hc h.symm), zero_add]

lemma scoreMap_val_eq_specScore (evs : List Event) (lat lon radius now : ℝ)
    (c : String) :
    (scoreMap evs lat lon radius now).val c = specScore evs lat lon radius now c := by
  rw [scoreMap, scoreStep_foldl_val]
  simp

/-- C1: for every query and snapshot, the score accumulated by the scoring
loop for a content id equals the sum, over exactly those events whose
haversine distance from the query point is at most the radius and whose
article id matches, of `type_weight * exp(-ln 2 * age_hours / 12) *
(1 / (1 + d))`; events with `d > radius` contribute nothing. -/
theorem score_eq_spec_sum (evs : List Event) (lat lon radius now : ℝ)
    (c : String) :
    (scoreMap evs lat lon radius now).val c = specScore evs lat lon radius now c :=
  scoreMap_val_eq_specScore evs lat lon radius now c

lemma typeWeight_eq_zero {t : String} (h : t ∉ ["view", "click", "share"]) :
    typeWeight t = 0 := by
  have h1 : ¬(t = "view") := fun he => h (by rw [he]; simp)
  have h2 : ¬(t = "click") := fun he => h (by rw [he]; simp)
  have h3 : ¬(t = "share") := fun he => h (by rw [he]; simp)
  rw [typeWeight, if_neg h1, if_neg h2, if_neg h3]

lemma scoreStep_keys_mono (lat lon radius now : ℝ) (m : ScoreMap) (e : Event)
    (id : String) (h : id ∈ m.keys) :
    id ∈ (scoreStep lat lon radius now m e).keys := by
  unfold scoreStep
  by_cases hd : radius < haversine lat lon e.Lat e.Lon
  · rw [if_pos hd]; exact h
  · rw [if_neg hd]
    dsimp only
    by_cases hk : e.ArticleID ∈ m.keys
    · rw [if_pos hk]; exact h
    · rw [if_neg hk]; exact List.mem_append_left _ h

lemma scoreStep_keys_self (lat lon radius now : ℝ) (m : ScoreMap) (e : Event)
    (hd : ¬ radius < haversine lat lon e.Lat e.Lon) :
    e.ArticleID ∈ (scoreStep lat lon radius now m e).keys := by
  unfold scoreStep
  rw [if_neg hd]
  dsimp only
  by_cases hk : e.ArticleID ∈ m.keys
  · rw [if_pos hk]; exact hk
  · rw [if_neg hk]
    exact List.mem_append_right _ (List.mem_singleton_self _)

lemma foldl_keys_mono (lat lon radius now : ℝ) :
    ∀ (evs : List Event) (m : ScoreMap) (id : String), id ∈ m.keys →
      id ∈ (evs.foldl (scoreStep lat lon radius now) m).keys
  | [], _, _, h => h
  | e :: evs, m, id, h =>
    foldl_keys_mono lat lon radius now evs _ id
      (scoreStep_keys_mono lat lon radius now m e id h)

lemma foldl_keys_of_qualifying (lat lon radius now : ℝ) :
    ∀ (evs : List Event) (m : ScoreMap) (e : Event), e ∈ evs →
      haversine lat lon e.Lat e.Lon ≤ radius →
      e.ArticleID ∈ (evs.foldl (scoreStep lat lon radius now) m).keys := by
  intro evs
  induction evs with
  | nil => intro m e he; exact absurd he (List.not_mem_nil e)
  | cons e0 evs ih =>
    intro m e he hd
    rcases List.mem_cons.mp he with h0 | hmem
    · subst h0
      exact foldl_keys_mono lat lon radius now evs _ e.ArticleID
        (scoreStep_keys_self lat lon radius now m e (not_lt.mpr hd))
    · exact ih _ e hmem hd

lemma foldl_eq_of_all_far (lat lon radius now : ℝ) :
    ∀ (evs : List Event) (m : ScoreMap),
      (∀ e ∈ evs, radius < haversine lat lon e.Lat e.Lon) →
      evs.foldl (scoreStep lat lon radius now) m = m
  | [], _, _ => rfl
  | e :: evs, m, h => by
    rw [List.foldl_cons]
    have hstep : scoreStep lat lon radius now m e = m := by
      unfold scoreStep
      rw [if_pos (h e (List.mem_cons_self e evs))]
    rw [hstep]
    exact foldl_eq_of_all_far lat lon radius now evs m
      (fun e2 h2 => h e2 (List.mem_cons_of_mem e h2))

/-- C10: an in-radius event whose type is none of `view`, `click`, `share`
is scored with the zero weight of a missing Go map key, yet its article id
is still inserted into the score map; if all of that article's events are
of unknown type its accumulated score is exactly 0, so the article is
ranked (it reaches the resolver's id list) rather than excluded. -/
theorem unknown_type_weight_zero_still_ranked (evs : List Event)
    (lat lon radius now : ℝ) (e : Event) (h1 : e ∈ evs)
    (h2 : e.EvType ∉ ["view", "click", "share"])
    (h3 : haversine lat lon e.Lat e.Lon ≤ radius) :
    typeWeight e.EvType = 0 ∧
    e.ArticleID ∈ (scoreMap evs lat lon radius now).keys ∧
    ((∀ e2 ∈ evs, e2.ArticleID = e.ArticleID → e2.EvType ∉ ["view", "click", "share"]) →
      (scoreMap evs lat lon radius now).val e.ArticleID = 0) := by
  refine ⟨typeWeight_eq_zero h2, ?_, ?_⟩
  · exact foldl_keys_of_qualifying lat lon radius now evs _ e h1 h3
  · intro hall
    rw [scoreMap_val_eq_specScore]
    unfold specScore
    apply List.sum_eq_zero
    intro x hx
    rcases List.mem_map.mp hx with ⟨e2, he2, hex⟩
    rcases List.mem_filter.mp he2 with ⟨hmem, hpred⟩
    have hp := of_decide_eq_true hpred
    rw [← hex, eventScore, typeWeight_eq_zero (hall e2 hmem hp.2), zero_mul, zero_mul]

/-! Cache behaviour -/

lemma getTrending_of_cache_fresh (s : SysState)
    (resolve : List String → List Article) (lat lon radius : ℝ) (limit : ℕ)
    (now : ℝ) (e : cachedTrending)
    (hc : s.cache (cacheKey lat lon radius) = some e) (hf : now - e.At < 60) :
    GetTrendingForLocation s resolve lat lon radius limit now =
      ((takeTop e.Result limit, none), s) := by
  simp only [GetTrendingForLocation, hc]
  rw [if_pos hf]

lemma getTrending_of_cache_stale (s : SysState)
    (resolve : List String → List Article) (lat lon radius : ℝ) (limit : ℕ)
    (now : ℝ) (e : cachedTrending)
    (hc : s.cache (cacheKey lat lon radius) = some e) (hf : ¬ now - e.At < 60) :
    GetTrendingForLocation s resolve lat lon radius limit now =
      recomputeTrending s resolve lat lon radius limit now := by
  simp only [GetTrendingForLocation, hc]
  rw [if_neg hf]

lemma getTrending_of_cache_none (s : SysState)
    (resolve : List String → List Article) (lat lon radius : ℝ) (limit : ℕ)
    (now : ℝ) (hc : s.cache (cacheKey lat lon radius) = none) :
    GetTrendingForLocation s resolve lat lon radius limit now =
      recomputeTrending s resolve lat lon radius limit now := by
  simp only [GetTrendingForLocation, hc]

lemma recompute_cache_self (s : SysState)
    (resolve : List String → List Article) (lat lon radius : ℝ) (limit : ℕ)
    (now : ℝ) :
    (recomputeTrending s resolve lat lon radius limit now).2.cache
        (cacheKey lat lon radius) =
      some (cachedTrending.mk now
        (computeTrending s.events resolve lat lon radius now)) := by
  unfold recomputeTrending
  dsimp only
  rw [if_pos rfl]

/-- C2: a cache entry aged 60 seconds or more is never served: every call
is either answered from an entry written less than 60 seconds before the
read (and leaves the state untouched) or takes the recompute path. -/
theorem stale_entry_never_served (s : SysState)
    (resolve : List String → List Article) (lat lon radius : ℝ) (limit : ℕ)
    (now : ℝ) :
    (∃ e, s.cache (cacheKey lat lon radius) = some e ∧ now - e.At < 60 ∧
      GetTrendingForLocation s resolve lat lon radius limit now =
        ((takeTop e.Result limit, none), s)) ∨
    GetTrendingForLocation s resolve lat lon radius limit now =
      recomputeTrending s resolve lat lon radius limit now := by
  cases hc : s.cache (cacheKey lat lon radius) with
  | none =>
    exact Or.inr (getTrending_of_cache_none s resolve lat lon radius limit now hc)
  | some e =>
    by_cases hf : now - e.At < 60
    · exact Or.inl ⟨e, rfl, hf,
        getTrending_of_cache_fresh s resolve lat lon radius limit now e hc hf⟩
    · exact Or.inr
        (getTrending_of_cache_stale s resolve lat lon radius limit now e hc hf)

/-- C3: two calls whose coordinates quantize to the same cache key and use
the same limit, the second issued while the entry left by the first call
is still inside the 60-second freshness window, with no intervening
simulation run (the state of the first call is passed on unchanged),
return bit-identical ranked lists. -/
theorem cache_idempotent_within_window (s : SysState)
    (res1 res2 : List String → List Article)
    (lat1 lon1 radius1 lat2 lon2 radius2 : ℝ) (limit : ℕ) (t1 t2 : ℝ)
    (e : cachedTrending)
    (hkey : cacheKey lat2 lon2 radius2 = cacheKey lat1 lon1 radius1)
    (hentry : ((GetTrendingForLocation s res1 lat1 lon1 radius1 limit t1).2).cache
        (cacheKey lat1 lon1 radius1) = some e)
    (hfresh : t2 - e.At < 60) :
    (GetTrendingForLocation
        ((GetTrendingForLocation s res1 lat1 lon1 radius1 limit t1).2)
        res2 lat2 lon2 radius2 limit t2).1.1 =
      (GetTrendingForLocation s res1 lat1 lon1 radius1 limit t1).1.1 := by
  have hmiss : GetTrendingForLocation s res1 lat1 lon1 radius1 limit t1 =
        recomputeTrending s res1 lat1 lon1 radius1 limit t1 →
      (GetTrendingForLocation
          ((GetTrendingForLocation s res1 lat1 lon1 radius1 limit t1).2)
          res2 lat2 lon2 radius2 limit t2).1.1 =
        (GetTrendingForLocation s res1 lat1 lon1 radius1 limit t1).1.1 := by
    intro hcall1
    rw [hcall1] at hentry ⊢
    rw [recompute_cache_self] at hentry
    have he := Option.some.inj hentry
    subst he
    dsimp only at hfresh
    have hc2 : (recomputeTrending s res1 lat1 lon1 radius1 limit t1).2.cache
        (cacheKey lat2 lon2 radius2) =
        some (cachedTrending.mk t1
          (computeTrending s.events res1 lat1 lon1 radius1 t1)) := by
      rw [hkey]
      exact recompute_cache_self s res1 lat1 lon1 radius1 limit t1
    rw [getTrending_of_cache_fresh _ res2 lat2 lon2 radius2 limit t2 _ hc2 hfresh]
    rfl
  cases hc1 : s.cache (cacheKey lat1 lon1 radius1) with
  | some e0 =>
    by_cases hf1 : t1 - e0.At < 60
    · have hcall1 :=
        getTrending_of_cache_fresh s res1 lat1 lon1 radius1 limit t1 e0 hc1 hf1
      rw [hcall1] at hentry ⊢
      dsimp only at hentry ⊢
      rw [hc1] at hentry
      have he : e0 = e := Option.some.inj hentry
      subst he
      have hc2 : s.cache (cacheKey lat2 lon2 radius2) = some e0 := by
        rw [hkey]
        exact hc1
      rw [getTrending_of_cache_fresh s res2 lat2 lon2 radius2 limit t2 e0 hc2 hfresh]
    · exact hmiss
        (getTrending_of_cache_stale s res1 lat1 lon1 radius1 limit t1 e0 hc1 hf1)
  | none =>
    exact hmiss (getTrending_of_cache_none s res1 lat1 lon1 radius1 limit t1 hc1)

/-! Ranking order -/

/-- A ranked list in non-increasing score order. -/
def sortedDesc (l : List trendingItem) : Prop :=
  l.Pairwise fun a b => b.Score ≤ a.Score

/-- Every cached full ranked list is sorted; this holds for every state the
service actually reaches, since only `recomputeTrending` writes entries. -/
def CacheWF (s : SysState) : Prop :=
  ∀ k e, s.cache k = some e → sortedDesc e.Result

lemma takeTop_eq_take {α : Type} (l : List α) (n : ℕ) : takeTop l n = l.take n := by
  unfold takeTop
  by_cases h : n < l.length
  · rw [if_pos h]
  · rw [if_neg h, List.take_of_length_le (le_of_not_lt h)]

lemma length_takeTop {α : Type} (l : List α) (n : ℕ) :
    (takeTop l n).length = min n l.length := by
  rw [takeTop_eq_take, List.length_take]

lemma sortedDesc_take (l : List trendingItem) (n : ℕ) (h : sortedDesc l) :
    sortedDesc (l.take n) :=
  List.Pairwise.sublist (List.take_sublist n l) h

lemma computeTrending_sorted (evs : List Event)
    (resolve : List String → List Article) (lat lon radius now : ℝ) :
    sortedDesc (computeTrending evs resolve lat lon radius now) := by
  unfold computeTrending sortedDesc
  apply List.Pairwise.imp (fun hab => of_decide_eq_true hab)
  apply List.sorted_mergeSort
  · intro a b c hab hbc
    exact decide_eq_true (le_trans (of_decide_eq_true hbc) (of_decide_eq_true hab))
  · intro a b
    rcases le_total b.Score a.Score with h | h <;> simp [h]

lemma recompute_sorted_and_sliced (s : SysState)
    (resolve : List String → List Article) (lat lon radius : ℝ) (limit : ℕ)
    (now : ℝ) :
    (recomputeTrending s resolve lat lon radius limit now).1.1 =
      takeTop (computeTrending s.events resolve lat lon radius now) limit :=
  rfl

/-- C4: under the invariant that cached lists are sorted, every call
returns a list of length at most `limit`, sorted in non-increasing score
order, equal to the `limit`-prefix of the full ranked list of the call;
when `limit` is smaller than the number of qualifying items the result has
length exactly `limit`. -/
theorem trending_sorted_and_limited (s : SysState)
    (resolve : List String → List Article) (lat lon radius : ℝ) (limit : ℕ)
    (now : ℝ) (hwf : CacheWF s) :
    sortedDesc (GetTrendingForLocation s resolve lat lon radius limit now).1.1 ∧
    (GetTrendingForLocation s resolve lat lon radius limit now).1.1.length ≤ limit ∧
    ∃ full, sortedDesc full ∧
      (GetTrendingForLocation s resolve lat lon radius limit now).1.1 = full.take limit ∧
      (limit < full.length →
        (GetTrendingForLocation s resolve lat lon radius limit now).1.1.length = limit) := by
  have hmain : ∀ full : List trendingItem, sortedDesc full →
      ∀ r : List trendingItem, r = takeTop full limit →
      sortedDesc r ∧ r.length ≤ limit ∧
      ∃ f2, sortedDesc f2 ∧ r = f2.take limit ∧
        (limit < f2.length → r.length = limit) := by
    intro full hs r hr
    subst hr
    rw [takeTop_eq_take]
    refine ⟨sortedDesc_take full limit hs, ?_, full, hs, rfl, ?_⟩
    · rw [List.length_take]
      exact min_le_left _ _
    · intro hlt
      rw [List.length_take]
      exact min_eq_left (le_of_lt hlt)
  cases hc : s.cache (cacheKey lat lon radius) with
  | none =>
    rw [getTrending_of_cache_none s resolve lat lon radius limit now hc]
    exact hmain _ (computeTrending_sorted s.events resolve lat lon radius now) _
      (recompute_sorted_and_sliced s resolve lat lon radius limit now)
  | some e =>
    by_cases hf : now - e.At < 60
    · rw [getTrending_of_cache_fresh s resolve lat lon radius limit now e hc hf]
      exact hmain e.Result (hwf _ e hc) _ rfl
    · rw [getTrending_of_cache_stale s resolve lat lon radius limit now e hc hf]
      exact hmain _ (computeTrending_sorted s.events resolve lat lon radius now) _
        (recompute_sorted_and_sliced s resolve lat lon radius limit now)

/-! Graceful degradation -/

lemma computeTrending_of_all_far (evs : List Event)
    (resolve : List String → List Article) (lat lon radius now : ℝ)
    (h : ∀ e ∈ evs, radius < haversine lat lon e.Lat e.Lon) :
    computeTrending evs resolve lat lon radius now = [] := by
  unfold computeTrending scoreMap
  rw [foldl_eq_of_all_far lat lon radius now evs _ h]
  simp

/-- C5: `GetTrendingForLocation` never fails for lack of trending data: the
error component is `nil` on every path; a simulation run over zero content
items leaves the event store empty; and with an empty event store, or a
radius that excludes every event, a (non-cached) call returns the empty
list. -/
theorem trending_no_failure :
    (∀ (s : SysState) (resolve : List String → List Article)
      (lat lon radius : ℝ) (limit : ℕ) (now : ℝ),
      (GetTrendingForLocation s resolve lat lon radius limit now).1.2 = none) ∧
    (∀ (now : ℝ) (numDraw : ℕ) (draws : ℕ → EventDraw),
      simulateEvents [] now numDraw draws = []) ∧
    (∀ (s : SysState) (resolve : List String → List Article)
      (lat lon radius : ℝ) (limit : ℕ) (now : ℝ), s.events = [] →
      s.cache (cacheKey lat lon radius) = none →
      (GetTrendingForLocation s resolve lat lon radius limit now).1.1 = []) ∧
    (∀ (s : SysState) (resolve : List String → List Article)
      (lat lon radius : ℝ) (limit : ℕ) (now : ℝ),
      (∀ e ∈ s.events, radius < haversine lat lon e.Lat e.Lon) →
      s.cache (cacheKey lat lon radius) = none →
      (GetTrendingForLocation s resolve lat lon radius limit now).1.1 = []) := by
  have hfar : ∀ (s : SysState) (resolve : List String → List Article)
      (lat lon radius : ℝ) (limit : ℕ) (now : ℝ),
      (∀ e ∈ s.events, radius < haversine lat lon e.Lat e.Lon) →
      s.cache (cacheKey lat lon radius) = none →
      (GetTrendingForLocation s resolve lat lon radius limit now).1.1 = [] := by
    intro s resolve lat lon radius limit now hev hc
    rw [getTrending_of_cache_none s resolve lat lon radius limit now hc,
      recompute_sorted_and_sliced,
      computeTrending_of_all_far s.events resolve lat lon radius now hev,
      takeTop_eq_take, List.take_nil]
  refine ⟨?_, ?_, ?_, hfar⟩
  · intro s resolve lat lon radius limit now
    cases hc : s.cache (cacheKey lat lon radius) with
    | none =>
      rw [getTrending_of_cache_none s resolve lat lon radius limit now hc]
      rfl
    | some e =>
      by_cases hf : now - e.At < 60
      · rw [getTrending_of_cache_fresh s resolve lat lon radius limit now e hc hf]
      · rw [getTrending_of_cache_stale s resolve lat lon radius limit now e hc hf]
        rfl
  · intro now numDraw draws
    simp [simulateEvents]
  · intro s resolve lat lon radius limit now hev hc
    exact hfar s resolve lat lon radius limit now
      (fun e he => absurd (hev ▸ he) (List.not_mem_nil e)) hc

/-! Content resolver -/

/-- C6: the resolver returns only articles whose id is in the requested
set (ids matching no article are silently dropped); a primary-store
failure falls back to the bundled file with the same id filtering; and
when both sources fail the result is empty, with no error surfaced (the
return type carries no error at all, as in the source). -/
theorem resolver_filters_and_falls_back :
    (∀ (ids : List String) (dbRead fileRead : Except String (List Article)),
      ∀ a ∈ loadArticlesByIDs ids dbRead fileRead, a.ID ∈ ids) ∧
    (∀ (ids : List String) (msg : String) (all : List Article),
      loadArticlesByIDs ids (.error msg) (.ok all) =
        all.filter fun a => decide (a.ID ∈ ids)) ∧
    (∀ (ids : List String) (m1 m2 : String),
      loadArticlesByIDs ids (.error m1) (.error m2) = []) := by
  refine ⟨?_, fun ids msg all => rfl, fun ids m1 m2 => rfl⟩
  intro ids dbRead fileRead a ha
  cases dbRead with
  | ok articles =>
    exact of_decide_eq_true (List.mem_filter.mp ha).2
  | error msg =>
    cases fileRead with
    | ok all => exact of_decide_eq_true (List.mem_filter.mp ha).2
    | error m2 => exact absurd ha (List.not_mem_nil a)

/-! Event simulator -/

/-- C7: a simulator run over a non-empty article list produces between
1,000 and 3,000 events, and every event references one of the articles,
sits within ±0.025° of that article's coordinates on each axis, has a type
among view/click/share, and is time-stamped within the last 48 hours
(seconds in `[now - 172800, now]`). -/
theorem simulate_events_shape (articles : List Article) (now : ℝ)
    (numDraw : ℕ) (draws : ℕ → EventDraw) (hne : articles ≠ [])
    (hnum : numDraw < 2000)
    (hdraws : ∀ i, (draws i).artIdx < articles.length ∧ (draws i).typIdx < 3 ∧
      0 ≤ (draws i).latU ∧ (draws i).latU < 1 ∧ 0 ≤ (draws i).lonU ∧
      (draws i).lonU < 1 ∧ (draws i).ageMin < 2880) :
    1000 ≤ (simulateEvents articles now numDraw draws).length ∧
    (simulateEvents articles now numDraw draws).length ≤ 3000 ∧
    ∀ e ∈ simulateEvents articles now numDraw draws, ∃ a ∈ articles,
      e.ArticleID = a.ID ∧ |e.Lat - a.Latitude| ≤ 0.025 ∧
      |e.Lon - a.Longitude| ≤ 0.025 ∧ e.EvType ∈ ["view", "click", "share"] ∧
      now - 172800 ≤ e.Ts ∧ e.Ts ≤ now := by
  have hlen0 : ¬ articles.length = 0 := by
    simpa [List.length_eq_zero] using hne
  have hjit : ∀ u : ℝ, 0 ≤ u → u < 1 → |(u - 0.5) * 0.05| ≤ 0.025 := by
    intro u h0 h1
    have habs : |u - 0.5| ≤ 0.5 := abs_le.mpr ⟨by linarith, by linarith⟩
    calc |(u - 0.5) * 0.05| = |u - 0.5| * |(0.05 : ℝ)| := abs_mul _ _
      _ ≤ 0.5 * |(0.05 : ℝ)| := by
          apply mul_le_mul_of_nonneg_right habs (abs_nonneg _)
      _ = 0.025 := by
          rw [abs_of_pos (by norm_num : (0.05 : ℝ) > 0)]
          norm_num
  unfold simulateEvents
  rw [if_neg hlen0]
  rw [List.length_map, List.length_range]
  refine ⟨by omega, by omega, ?_⟩
  intro e he
  rcases List.mem_map.mp he with ⟨i, hi, hei⟩
  obtain ⟨hart, htyp, hlat0, hlat1, hlon0, hlon1, hage⟩ := hdraws i
  refine ⟨articles.getD (draws i).artIdx default, ?_, ?_, ?_, ?_, ?_, ?_, ?_⟩
  · rw [List.getD_eq_getElem?_getD, List.getElem?_eq_getElem hart, Option.getD_some]
    exact List.getElem_mem hart
  · rw [← hei]
  · rw [← hei]
    dsimp only
    have harr : ∀ x u : ℝ, x + (u - 0.5) * 0.05 - x = (u - 0.5) * 0.05 := by
      intro x u
      ring
    rw [harr]
    exact hjit _ hlat0 hlat1
  · rw [← hei]
    dsimp only
    have harr : ∀ x u : ℝ, x + (u - 0.5) * 0.05 - x = (u - 0.5) * 0.05 := by
      intro x u
      ring
    rw [harr]
    exact hjit _ hlon0 hlon1
  · rw [← hei]
    dsimp only
    interval_cases h : (draws i).typIdx <;> simp
  · rw [← hei]
    dsimp only
    have hc : ((draws i).ageMin : ℝ) ≤ 2879 := by
      exact_mod_cast Nat.le_of_lt_succ hage
    linarith
  · rw [← hei]
    dsimp only
    have hc : (0 : ℝ) ≤ ((draws i).ageMin : ℝ) := Nat.cast_nonneg _
    linarith

/-- The sortedness invariant `CacheWF` is preserved by every call: the only
cache write stores the freshly sorted full ranked list, so the hypothesis
of the ordering theorem holds in every reachable state. -/
lemma getTrending_preserves_CacheWF (s : SysState)
    (resolve : List String → List Article) (lat lon radius : ℝ) (limit : ℕ)
    (now : ℝ) (hwf : CacheWF s) :
    CacheWF (GetTrendingForLocation s resolve lat lon radius limit now).2 := by
  have hrec : CacheWF (recomputeTrending s resolve lat lon radius limit now).2 := by
    intro k e h
    unfold recomputeTrending at h
    dsimp only at h
    by_cases hk : k = cacheKey lat lon radius
    · rw [if_pos hk] at h
      have he := Option.some.inj h
      rw [← he]
      exact computeTrending_sorted s.events resolve lat lon radius now
    · rw [if_neg hk] at h
      exact hwf k e h
  cases hc : s.cache (cacheKey lat lon radius) with
  | none =>
    rw [getTrending_of_cache_none s resolve lat lon radius limit now hc]
    exact hrec
  | some e =>
    by_cases hf : now - e.At < 60
    · rw [getTrending_of_cache_fresh s resolve lat lon radius limit now e hc hf]
      exact hwf
    · rw [getTrending_of_cache_stale s resolve lat lon radius limit now e hc hf]
      exact hrec

/-! Concrete witnesses -/

/-- Witness for C3: starting from an empty state at time 0, a first call
writes the entry at time 0 and a second identical call at time 30 (inside
the 60-second window) returns the same list. -/
theorem cache_idempotent_within_window_witness :
    cacheKey 0 0 50 = cacheKey 0 0 50 ∧
    ((GetTrendingForLocation (SysState.mk [] fun _ => none) (fun _ => [])
        0 0 50 5 0).2).cache (cacheKey 0 0 50) = some (cachedTrending.mk 0 []) ∧
    (30 : ℝ) - (cachedTrending.mk 0 []).At < 60 ∧
    (GetTrendingForLocation
        ((GetTrendingForLocation (SysState.mk [] fun _ => none) (fun _ => [])
          0 0 50 5 0).2) (fun _ => []) 0 0 50 5 30).1.1 =
      (GetTrendingForLocation (SysState.mk [] fun _ => none) (fun _ => [])
        0 0 50 5 0).1.1 := by
  have hentry : ((GetTrendingForLocation (SysState.mk [] fun _ => none)
      (fun _ => []) 0 0 50 5 0).2).cache (cacheKey 0 0 50) =
      some (cachedTrending.mk 0 []) := by
    rw [getTrending_of_cache_none _ _ 0 0 50 5 0 rfl, recompute_cache_self]
    have hct : computeTrending (SysState.mk [] fun _ => none).events
        (fun _ => []) 0 0 50 0 = [] :=
      computeTrending_of_all_far _ _ 0 0 50 0
        (fun e he => absurd he (List.not_mem_nil e))
    rw [hct]
  exact ⟨rfl, hentry, by norm_num,
    cache_idempotent_within_window (SysState.mk [] fun _ => none)
      (fun _ => []) (fun _ => []) 0 0 50 0 0 50 5 0 30
      (cachedTrending.mk 0 []) rfl hentry (by norm_num)⟩

/-- Witness for C4: the empty cache satisfies the sortedness invariant and
the theorem applies at a concrete query. -/
theorem trending_sorted_and_limited_witness :
    CacheWF (SysState.mk [] fun _ => none) ∧
    sortedDesc (GetTrendingForLocation (SysState.mk [] fun _ => none)
      (fun _ => []) 0 0 50 5 0).1.1 :=
  ⟨fun _ e h => Option.noConfusion h,
   (trending_sorted_and_limited (SysState.mk [] fun _ => none) (fun _ => [])
     0 0 50 5 0 (fun _ e h => Option.noConfusion h)).1⟩

/-- Witness for C5: a concrete empty-store, empty-cache call returns the
empty list with a nil error, and a zero-article simulation run produces no
events. -/
theorem trending_no_failure_witness :
    (GetTrendingForLocation (SysState.mk [] fun _ => none) (fun _ => [])
      0 0 50 5 0).1.2 = none ∧
    simulateEvents [] 0 0 (fun _ => EventDraw.mk 0 0 0 0 0) = [] ∧
    (GetTrendingForLocation (SysState.mk [] fun _ => none) (fun _ => [])
      0 0 50 5 0).1.1 = [] :=
  ⟨trending_no_failure.1 (SysState.mk [] fun _ => none) (fun _ => []) 0 0 50 5 0,
   trending_no_failure.2.1 0 0 (fun _ => EventDraw.mk 0 0 0 0 0),
   trending_no_failure.2.2.1 (SysState.mk [] fun _ => none) (fun _ => [])
     0 0 50 5 0 rfl rfl⟩

/-- Witness for C6: with a failing primary store and a bundled file holding
one article with id `a1`, a request for ids `[a1, zz]` returns exactly the
`a1` article, whose id is in the requested set; with both sources failing
the result is empty. -/
theorem resolver_filters_witness :
    (Article.mk "a1" "" "" "" "" 0 "" [] 0 0 0) ∈
      loadArticlesByIDs ["a1", "zz"] (.error "db down")
        (.ok [Article.mk "a1" "" "" "" "" 0 "" [] 0 0 0]) ∧
    (Article.mk "a1" "" "" "" "" 0 "" [] 0 0 0).ID ∈ ["a1", "zz"] ∧
    loadArticlesByIDs ["a1", "zz"] (.error "db down") (.error "file gone") = [] := by
  have hmem : (Article.mk "a1" "" "" "" "" 0 "" [] 0 0 0) ∈
      loadArticlesByIDs ["a1", "zz"] (.error "db down")
        (.ok [Article.mk "a1" "" "" "" "" 0 "" [] 0 0 0]) := by
    unfold loadArticlesByIDs
    simp
  exact ⟨hmem,
    resolver_filters_and_falls_back.1 ["a1", "zz"] (.error "db down")
      (.ok [Article.mk "a1" "" "" "" "" 0 "" [] 0 0 0]) _ hmem,
    resolver_filters_and_falls_back.2.2 ["a1", "zz"] "db down" "file gone"⟩

/-- Witness for C7: one article and the constant all-zero draw stream meet
every hypothesis, and the simulator then emits exactly 1000 events. -/
theorem simulate_events_shape_witness :
    ([Article.mk "a1" "" "" "" "" 0 "" [] 0 2 3] ≠ []) ∧ (0 : ℕ) < 2000 ∧
    1000 ≤ (simulateEvents [Article.mk "a1" "" "" "" "" 0 "" [] 0 2 3] 0 0
      (fun _ => EventDraw.mk 0 0 0 0 0)).length ∧
    (simulateEvents [Article.mk "a1" "" "" "" "" 0 "" [] 0 2 3] 0 0
      (fun _ => EventDraw.mk 0 0 0 0 0)).length ≤ 3000 :=
  ⟨by simp, by norm_num,
   (simulate_events_shape [Article.mk "a1" "" "" "" "" 0 "" [] 0 2 3] 0 0
     (fun _ => EventDraw.mk 0 0 0 0 0) (by simp) (by norm_num)
     (fun i => by refine ⟨?_, ?_, ?_, ?_, ?_, ?_, ?_⟩ <;> norm_num)).1,
   (simulate_events_shape [Article.mk "a1" "" "" "" "" 0 "" [] 0 2 3] 0 0
     (fun _ => EventDraw.mk 0 0 0 0 0) (by simp) (by norm_num)
     (fun i => by refine ⟨?_, ?_, ?_, ?_, ?_, ?_, ?_⟩ <;> norm_num)).2.1⟩

/-- Witness for C10: a single in-radius `purchase` event at the query
point gets weight 0, yet its article id enters the score map with total
score 0. -/
theorem unknown_type_witness :
    (Event.mk "a1" "purchase" 0 0 0 ∈ [Event.mk "a1" "purchase" 0 0 0]) ∧
    ("purchase" ∉ ["view", "click", "share"]) ∧
    haversine 0 0 0 0 ≤ 1 ∧
    (typeWeight "purchase" = 0 ∧
      "a1" ∈ (scoreMap [Event.mk "a1" "purchase" 0 0 0] 0 0 1 0).keys ∧
      ((∀ e2 ∈ [Event.mk "a1" "purchase" 0 0 0], e2.ArticleID = "a1" →
          e2.EvType ∉ ["view", "click", "share"]) →
        (scoreMap [Event.mk "a1" "purchase" 0 0 0] 0 0 1 0).val "a1" = 0)) := by
  have hdist : haversine 0 0 0 0 ≤ 1 := by
    rw [haversine_self]
    norm_num
  exact ⟨List.mem_singleton_self _, by decide, hdist,
    unknown_type_weight_zero_still_ranked [Event.mk "a1" "purchase" 0 0 0]
      0 0 1 0 (Event.mk "a1" "purchase" 0 0 0)
      (List.mem_singleton_self _) (by decide) hdist⟩

end

end NewsBackend
